import Mathlib

/-
Verification of the tfvm terraform version manager (index.js, latest
snapshot, together with src/sha256Stream.js).

The embedding fixes the host platform to linux/x64, matching the
getPlatform and getArch switch cases for that host: the executable
suffix is empty, the platform string is "linux" and the architecture
string is "amd64".  Text is modelled as Lean String values (the
manifest is ASCII); the filesystem state visible to the program is
modelled by the FS structure below; the external collaborators
(superagent, unzipper, openpgp, crypto) are modelled by environment
records carrying the outcome of each external call and by function
parameters (the Extern structure) standing for the sha256 digest
function, the archive extractor and the openpgp signature check.
-/

namespace Tfvm

/-- Lexicographic code-unit comparison of two character lists.  This is
the default comparator of the JavaScript Array.prototype.sort call used
by the program: elements are compared by their sequences of code units. -/
def charListLe : List Char → List Char → Bool
  | [], _ => true
  | _ :: _, [] => false
  | a :: as, b :: bs =>
    if a.toNat < b.toNat then true
    else if b.toNat < a.toNat then false
    else charListLe as bs

/-- Comparator on strings used by the model of Array.prototype.sort. -/
def strLe (a b : String) : Bool := charListLe a.toList b.toList

/-- Insertion step of the model of Array.prototype.sort. -/
def insertStr (x : String) : List String → List String
  | [] => [x]
  | y :: ys => if strLe x y then x :: y :: ys else y :: insertStr x ys

/-- Model of the default Array.prototype.sort on an array of strings:
sorts by the lexicographic code-unit order strLe. -/
def sortStrings : List String → List String
  | [] => []
  | x :: xs => insertStr x (sortStrings xs)

/-- Model of JavaScript String.prototype.split with separator a single
newline character, as used on the checksum manifest text. -/
def splitLines : List Char → List (List Char)
  | [] => [[]]
  | c :: rest =>
    if c = '\n' then [] :: splitLines rest
    else
      match splitLines rest with
      | [] => [[c]]
      | seg :: segs => (c :: seg) :: segs

/-- Model of JavaScript String.prototype.split with separator two
spaces, as used on each row of the checksum manifest. -/
def splitTwoSpaces : List Char → List (List Char)
  | [] => [[]]
  | [c] => [[c]]
  | c1 :: c2 :: rest =>
    if c1 = ' ' ∧ c2 = ' ' then [] :: splitTwoSpaces rest
    else
      match splitTwoSpaces (c2 :: rest) with
      | [] => [[c1]]
      | seg :: segs => (c1 :: seg) :: segs

/-- Parsing of the checksum manifest, from fetchSum: the text is split
into rows on newlines, each row is split on two spaces, and the pair
(name, hash) is recorded in insertion order exactly as the source
executes sumsMap.set(name, hash) with name the second component of the
row split (undefined, modelled as none, when the row has no two-space
separator) and hash the first component. -/
def parseSums (text : List Char) : List (Option (List Char) × List Char) :=
  (splitLines text).map (fun row =>
    match splitTwoSpaces row with
    | h :: n :: _ => (some n, h)
    | [h] => (none, h)
    | [] => (none, []))

/-- Model of JavaScript Map.prototype.get over the insertion sequence
recorded by parseSums: the value of the last set call whose key equals
the requested key, or none. -/
def mapGet (entries : List (Option (List Char) × List Char)) (k : List Char) :
    Option (List Char) :=
  entries.foldl (fun acc e => if e.1 = some k then some e.2 else acc) none

/-- Boolean test that the first list is an initial segment of the
second, used to model the search of the regular expression
re = RegExp(terraform_(.+)) at a given starting position. -/
def startsWithL : List Char → List Char → Bool
  | [], _ => true
  | _ :: _, [] => false
  | p :: ps, c :: cs => if p = c then startsWithL ps cs else false

/-- The literal part of the version extraction regular expression. -/
def tfMarker : List Char := ("terraform_").toList

/-- Model of re.exec for re = RegExp(terraform_(.+)) with an empty
executable suffix (linux host): scans for the first occurrence of the
literal marker; on a match the greedy group (.+) captures the whole
remainder, which must be nonempty for the match to succeed.  Returns
the captured group, or none when exec returns null. -/
def afterFirstTf : List Char → Option (List Char)
  | [] => none
  | c :: rest =>
    if startsWithL tfMarker (c :: rest) then some ((c :: rest).drop tfMarker.length)
    else afterFirstTf rest

/-- Model of path.basename for the inputs the program produces (no
trailing path separator): the suffix of the path after its last
slash. -/
def basenameL (l : List Char) : List Char :=
  (l.reverse.takeWhile (fun c => c ≠ '/')).reverse

/-- getVersion from index.js: extracts the version token from a file
name or path by matching RegExp(terraform_(.+)) against the basename
and taking capture group 1.  The source indexes the exec result without
a null check, so a null match throws a TypeError; the model returns
none in that case and the callers convert none into the thrown
TypeError. -/
def getVersion (file : String) : Option String :=
  match afterFirstTf (basenameL file.toList) with
  | some rest => if rest = [] then none else some (String.mk rest)
  | none => none

/-- EXE_SUFFIX on the linux host. -/
def EXE_SUFFIX : String := ""

/-- INSTALL_DIR, with the home directory fixed to /root. -/
def INSTALL_DIR : String := "/root/.tfvm"

/-- VERSIONS_DIR; path.join is modelled as slash concatenation. -/
def VERSIONS_DIR : String := INSTALL_DIR ++ "/versions"

/-- CURRENT_LINK, the path of the current-version symlink. -/
def CURRENT_LINK : String := INSTALL_DIR ++ "/terraform" ++ EXE_SUFFIX

/-- getArch on the x64 host. -/
def getArch : String := "amd64"

/-- getPlatform on the linux host. -/
def getPlatform : String := "linux"

/-- getZipName from index.js. -/
def getZipName (version : String) : String :=
  "terraform_" ++ version ++ "_" ++ getPlatform ++ "_" ++ getArch ++ ".zip"

/-- getExeUrl from index.js. -/
def getExeUrl (version : String) : String :=
  "https://releases.hashicorp.com/terraform/" ++ version ++ "/" ++ getZipName version

/-- getSumsUrl from index.js. -/
def getSumsUrl (version : String) : String :=
  "https://releases.hashicorp.com/terraform/" ++ version ++ "/terraform_" ++
    version ++ "_SHA256SUMS"

/-- getSigUrl from index.js. -/
def getSigUrl (version : String) : String :=
  "https://releases.hashicorp.com/terraform/" ++ version ++ "/terraform_" ++
    version ++ "_SHA256SUMS.sig"

/-- getPath from index.js: the install path of a version. -/
def getPath (version : String) : String :=
  VERSIONS_DIR ++ "/" ++ ("terraform_" ++ version ++ EXE_SUFFIX)

/-- Error taxonomy of the program.  Each constructor stands for one of
the Error values the source throws, or for a propagated I/O or network
error: downloadError carries the non-success HTTP status; typeError is
the TypeError thrown by indexing a null regular-expression match (and
by dereferencing an undefined argv); enoent is a propagated ENOENT from
unlink; ioError stands for any other propagated error. -/
inductive Err where
  | downloadError (status : Nat)
  | netError
  | archiveFormatError
  | writeError
  | signatureVerificationError
  | hashMismatchError
  | chmodError
  | notInstalledError (version : String)
  | permissionError
  | typeError
  | enoent
  | ioError
  deriving DecidableEq

/-- Kind of failure of a readdir call. -/
inductive IOKind where
  | enoent
  | other
  deriving DecidableEq

/-- Filesystem state visible to the program: whether the versions
directory exists, the version files under it (keyed by the version
token of their name, with their byte content), and the target path of
the current-version symlink when present. -/
structure FS where
  dirExists : Bool
  files : List (String × List Nat)
  current : Option String
  deriving DecidableEq

/-- Lookup of a version file by version token. -/
def lookupFile : List (String × List Nat) → String → Option (List Nat)
  | [], _ => none
  | e :: rest, v => if e.1 = v then some e.2 else lookupFile rest v

/-- Removal of the entry of a version token from the file listing. -/
def dropFile : List (String × List Nat) → String → List (String × List Nat)
  | [], _ => []
  | e :: rest, v => if e.1 = v then dropFile rest v else e :: dropFile rest v

/-- Creation or replacement of the file at getPath version. -/
def setFile (fs : FS) (version : String) (content : List Nat) : FS :=
  { fs with files := (version, content) :: dropFile fs.files version }

/-- Deletion of the file at getPath version. -/
def removeFile (fs : FS) (version : String) : FS :=
  { fs with files := dropFile fs.files version }

/-- isInstalled from index.js: stat of getPath version, true on
success, false on ENOENT.  In the model a stat succeeds exactly when
the file is present. -/
def isInstalled (fs : FS) (version : String) : Bool :=
  (lookupFile fs.files version).isSome

/-- getCurrent from index.js: readlink of CURRENT_LINK (ENOENT, that
is an absent link, gives null), then getVersion of the target; a null
regular-expression match inside getVersion throws a TypeError that the
catch clause rethrows. -/
def getCurrent (fs : FS) : Except Err (Option String) :=
  match fs.current with
  | none => Except.ok none
  | some target =>
    match getVersion target with
    | some v => Except.ok (some v)
    | none => Except.error Err.typeError

/-- Outcomes of the two concurrent fetches performed by fetchSum: the
manifest text (or a network failure) and whether the signature fetch
succeeded. -/
structure SumEnv where
  sums : Except Unit String
  sigOk : Bool

/-- fetchSum from index.js.  The two fetches run under Promise.all, so
a failure of either rejects with the underlying error (ioError).  The
signature is verified over the manifest text exactly as received (the
source deliberately avoids openpgp.cleartext because it normalises line
endings and trims whitespace); verifySig stands for the openpgp check
of the detached signature with the pinned HashiCorp key.  On a valid
signature the manifest is parsed and the digest for getZipName version
is looked up in the map: the result of Map.prototype.get is returned
directly, so an absent filename yields undefined (none), not an
error. -/
def fetchSum (verifySig : String → Bool) (env : SumEnv) (version : String) :
    Except Err (Option String) :=
  match env.sums, env.sigOk with
  | Except.ok text, true =>
    if verifySig text then
      Except.ok ((mapGet (parseSums text.toList) (getZipName version).toList).map
        (fun h => String.mk h))
    else
      Except.error Err.signatureVerificationError
  | _, _ => Except.error Err.ioError

/-- External collaborators of the install pipeline: the sha256 digest
of a byte sequence (crypto), the single-entry archive extractor
(unzipper.ParseOne, failing on a malformed archive), and the signature
check (openpgp). -/
structure Extern where
  sha256 : List Nat → String
  extract : List Nat → Except Unit (List Nat)
  verifySig : String → Bool

/-- Run of the sha256Stream transform (src/sha256Stream.js) over a byte
sequence: the _transform hook folds every chunk into the running hash
and forwards the chunk unchanged, so draining the stream yields the
digest of the input together with the unmodified input for the
downstream consumer. -/
def sha256StreamRun (sha256 : List Nat → String) (input : List Nat) :
    String × List Nat :=
  (sha256 input, input)

/-- Failure mode of the streaming phase after a 200 response: the
request can error mid-body, or the write stream can error; a malformed
archive is reported by the extractor itself. -/
inductive StreamEvent where
  | ok
  | netErr
  | writeErr
  deriving DecidableEq

/-- Environment of one install invocation: the HTTP response status of
the archive request (none when the request errors before any
response), the archive bytes of the response body, the failure mode of
the streaming phase, the bytes left in the output file when the
streaming phase fails after the file was created, the outcomes of the
manifest and signature fetches, and whether the chmod call fails. -/
structure InstallEnv where
  respStatus : Option Nat
  body : List Nat
  streamEvent : StreamEvent
  leftoverBytes : List Nat
  sumEnv : SumEnv
  chmodErr : Bool

/-- Result of an operation: its outcome, the filesystem state after it,
and the network requests it issued (by URL, in order). -/
structure OpResult where
  outcome : Except Err Unit
  fs : FS
  netOps : List String

/-- install from index.js (latest snapshot).  mkdir ensures the
versions directory exists.  The download promise wires
req -> sha256Stream -> unzipper.ParseOne and creates the write stream
at getPath version only inside the status-200 branch of the response
handler; a non-200 status aborts the request and rejects with the
download error, so no file is created.  After a 200 status the file
exists; a request error, a write error or an archive-format error
rejects the promise with the file still holding whatever bytes were
written.  When the write finishes, the promise resolves with the digest
of the hashed (pre-extraction) bytes.  The subsequent try block fetches
the expected digest, compares it with a strict inequality against the
resolved digest (an undefined expected digest therefore compares as a
mismatch) and sets the file executable; its catch clause unlinks the
output file and rethrows, so every failure of that block deletes the
file.  No such cleanup guards the streaming phase. -/
def install (ext : Extern) (env : InstallEnv) (fs : FS) (version : String) :
    OpResult :=
  let fs0 : FS := { fs with dirExists := true }
  let dl : List String := [getExeUrl version]
  match env.respStatus with
  | none => ⟨Except.error Err.netError, fs0, dl⟩
  | some st =>
    if st = 200 then
      let hashed := sha256StreamRun ext.sha256 env.body
      match env.streamEvent with
      | StreamEvent.netErr =>
        ⟨Except.error Err.netError, setFile fs0 version env.leftoverBytes, dl⟩
      | StreamEvent.writeErr =>
        ⟨Except.error Err.writeError, setFile fs0 version env.leftoverBytes, dl⟩
      | StreamEvent.ok =>
        match ext.extract hashed.2 with
        | Except.error _ =>
          ⟨Except.error Err.archiveFormatError, setFile fs0 version env.leftoverBytes, dl⟩
        | Except.ok content =>
          let fs1 := setFile fs0 version content
          let ops := dl ++ [getSumsUrl version, getSigUrl version]
          match fetchSum ext.verifySig env.sumEnv version with
          | Except.error e => ⟨Except.error e, removeFile fs1 version, ops⟩
          | Except.ok expected =>
            if some hashed.1 = expected then
              if env.chmodErr then
                ⟨Except.error Err.chmodError, removeFile fs1 version, ops⟩
              else
                ⟨Except.ok (), fs1, ops⟩
            else
              ⟨Except.error Err.hashMismatchError, removeFile fs1 version, ops⟩
    else
      ⟨Except.error (Err.downloadError st), fs0, dl⟩

/-- Outcome of the symlink system call inside setCurrent. -/
inductive SymlinkOutcome where
  | ok
  | eperm
  | otherErr
  deriving DecidableEq

/-- Environment of one setCurrent invocation: whether the unlink of
CURRENT_LINK fails with an error other than ENOENT, and the outcome of
the symlink call. -/
structure SetCurrentEnv where
  unlinkErr : Bool
  symlinkOutcome : SymlinkOutcome

/-- setCurrent from index.js (latest snapshot).  The unlink of
CURRENT_LINK tolerates ENOENT (an already absent link) and rethrows
any other error.  When a non-null version is given, the symlink call
is attempted inside a try whose catch rethrows only EPERM (as the
permission error with the retry-as-administrator message); any other
error from the symlink call is swallowed and the function returns
normally. -/
def setCurrent (env : SetCurrentEnv) (fs : FS) (version : Option String) :
    Except Err Unit × FS :=
  if env.unlinkErr then (Except.error Err.ioError, fs)
  else
    let fs1 : FS := { fs with current := none }
    match version with
    | none => (Except.ok (), fs1)
    | some v =>
      match env.symlinkOutcome with
      | SymlinkOutcome.ok => (Except.ok (), { fs1 with current := some (getPath v) })
      | SymlinkOutcome.eperm => (Except.error Err.permissionError, fs1)
      | SymlinkOutcome.otherErr => (Except.ok (), fs1)

/-- uninstall from index.js (latest snapshot): when getCurrent equals
the version being removed, setCurrent(null) clears the pointer first;
then the version file is unlinked (ENOENT when absent). -/
def uninstall (env : SetCurrentEnv) (fs : FS) (version : String) :
    Except Err Unit × FS :=
  match getCurrent fs with
  | Except.error e => (Except.error e, fs)
  | Except.ok cur =>
    let removeStep := fun (fs1 : FS) =>
      if isInstalled fs1 version then (Except.ok (), removeFile fs1 version)
      else (Except.error Err.enoent, fs1)
    if cur = some version then
      match setCurrent env fs none with
      | (Except.ok _, fs1) => removeStep fs1
      | (Except.error e, fs1) => (Except.error e, fs1)
    else removeStep fs

/-- uninstallCommand from index.js (latest snapshot): rejects a version
that is not installed with the not-installed error, then runs
uninstall, then calls getCurrent to decide whether to print the
no-version warning (an error from that call propagates). -/
def uninstallCommand (env : SetCurrentEnv) (fs : FS) (version : String) :
    Except Err Unit × FS :=
  if isInstalled fs version then
    match uninstall env fs version with
    | (Except.ok _, fs1) =>
      match getCurrent fs1 with
      | Except.ok _ => (Except.ok (), fs1)
      | Except.error e => (Except.error e, fs1)
    | (Except.error e, fs1) => (Except.error e, fs1)
  else (Except.error (Err.notInstalledError version), fs)

/-- installCommand from index.js (latest snapshot): an already
installed version only prints a message, performing no network request
and leaving the filesystem untouched; otherwise install runs and, when
no current version is set afterwards, useCommand is invoked without an
argv object, which throws a TypeError on dereferencing argv.version. -/
def installCommand (ext : Extern) (env : InstallEnv) (fs : FS) (version : String) :
    OpResult :=
  if isInstalled fs version then ⟨Except.ok (), fs, []⟩
  else
    let r := install ext env fs version
    match r.outcome with
    | Except.error e => ⟨Except.error e, r.fs, r.netOps⟩
    | Except.ok _ =>
      match getCurrent r.fs with
      | Except.ok none => ⟨Except.error Err.typeError, r.fs, r.netOps⟩
      | Except.ok (some _) => ⟨Except.ok (), r.fs, r.netOps⟩
      | Except.error e => ⟨Except.error e, r.fs, r.netOps⟩

/-- Mapping of getVersion over a file listing, as files.map(getVersion)
executes: the first name on which the regular-expression match is null
throws, modelled by none. -/
def mapGetVersionAll : List String → Option (List String)
  | [] => some []
  | f :: rest =>
    match getVersion f with
    | none => none
    | some v => (mapGetVersionAll rest).map (fun vs => v :: vs)

/-- list from index.js: readdir of VERSIONS_DIR (ENOENT yields the
empty array, any other readdir error propagates), then
files.map(getVersion).sort().  The function is modelled over the
outcome of the readdir call. -/
def list (readdirResult : Except IOKind (List String)) : Except Err (List String) :=
  match readdirResult with
  | Except.error IOKind.enoent => Except.ok []
  | Except.error IOKind.other => Except.error Err.ioError
  | Except.ok files =>
    match mapGetVersionAll files with
    | none => Except.error Err.typeError
    | some vs => Except.ok (sortStrings vs)

/-- Sample externals: identity extractor, constant digest, accepting
signature check. -/
def extIdentity : Extern :=
  { sha256 := fun _ => ("d1"), extract := fun bs => Except.ok bs,
    verifySig := fun _ => true }

/-- Sample externals whose extractor rejects the archive as malformed. -/
def extNoExtract : Extern :=
  { sha256 := fun _ => ("d1"), extract := fun _ => Except.error (),
    verifySig := fun _ => true }

/-- Sample externals whose digest function distinguishes the sample
archive bytes from every other input. -/
def extHashA : Extern :=
  { sha256 := fun bs => if bs = [7] then ("d1") else ("x"),
    extract := fun bs => Except.ok bs, verifySig := fun _ => true }

/-- Same as extHashA except on inputs other than the sample archive
bytes. -/
def extHashB : Extern :=
  { sha256 := fun bs => if bs = [7] then ("d1") else ("y"),
    extract := fun bs => Except.ok bs, verifySig := fun _ => true }

/-- Sample externals with a rejecting signature check. -/
def extRejectSig : Extern :=
  { sha256 := fun _ => ("d1"), extract := fun bs => Except.ok bs,
    verifySig := fun _ => false }

/-- Sample manifest environment naming the expected archive with
digest d1. -/
def sumEnvD1 : SumEnv :=
  { sums := Except.ok ("d1  terraform_1.0.0_linux_amd64.zip"), sigOk := true }

/-- Sample manifest environment missing the expected archive name. -/
def sumEnvMissing : SumEnv :=
  { sums := Except.ok ("deadbeef  othertool.zip"), sigOk := true }

/-- Sample manifest environment whose signature fetch fails. -/
def sumEnvSigFail : SumEnv := { sums := Except.ok (""), sigOk := false }

/-- Download environment: 200 response with archive bytes and a clean
stream, manifest naming the archive with digest d1. -/
def envBody7 : InstallEnv :=
  { respStatus := some 200, body := [7], streamEvent := StreamEvent.ok,
    leftoverBytes := [7], sumEnv := sumEnvD1, chmodErr := false }

/-- Download environment whose signature fetch fails after a clean
stream. -/
def envSigFetchFail : InstallEnv := { envBody7 with sumEnv := sumEnvSigFail }

/-- Download environment whose manifest lacks the archive name. -/
def envMissingSum : InstallEnv := { envBody7 with sumEnv := sumEnvMissing }

/-- Download environment answering with a 404 status. -/
def envStatus404 : InstallEnv := { envBody7 with respStatus := some 404 }

/-- Empty filesystem. -/
def fsEmpty : FS := { dirExists := false, files := [], current := none }

/-- Filesystem with version 1.0.0 installed and no current pointer. -/
def fsOne : FS := { dirExists := true, files := [(("1.0.0"), [1])], current := none }

/-- Filesystem with version 1.0.0 installed and current. -/
def fsOneCurrent : FS := { fsOne with current := some (getPath ("1.0.0")) }

/-- setCurrent environment with a clean unlink and symlink. -/
def scEnvOk : SetCurrentEnv :=
  { unlinkErr := false, symlinkOutcome := SymlinkOutcome.ok }

/-- setCurrent environment whose symlink call fails with a non-EPERM
error. -/
def scEnvOtherErr : SetCurrentEnv :=
  { unlinkErr := false, symlinkOutcome := SymlinkOutcome.otherErr }

end Tfvm

namespace Tfvm

instance {α β : Type} [DecidableEq α] [DecidableEq β] : DecidableEq (Except α β) :=
  fun x y =>
    match x, y with
    | Except.error a, Except.error b =>
      if h : a = b then Decidable.isTrue (by rw [h])
      else Decidable.isFalse (fun hc => by injection hc; exact h (by assumption))
    | Except.error _, Except.ok _ => Decidable.isFalse (fun hc => Except.noConfusion hc)
    | Except.ok _, Except.error _ => Decidable.isFalse (fun hc => Except.noConfusion hc)
    | Except.ok a, Except.ok b =>
      if h : a = b then Decidable.isTrue (by rw [h])
      else Decidable.isFalse (fun hc => by injection hc; exact h (by assumption))

theorem charListLe_total (a b : List Char) : charListLe a b = true ∨ charListLe b a = true := by
  induction a generalizing b with
  | nil => left; rfl
  | cons x xs ih =>
    cases b with
    | nil => right; rfl
    | cons y ys =>
      rcases Nat.lt_trichotomy x.toNat y.toNat with h | h | h
      · left; simp [charListLe, h]
      · rcases ih ys with h2 | h2
        · left; simp [charListLe, h, h2]
        · right; simp [charListLe, h, h2]
      · right; simp [charListLe, h, Nat.lt_asymm h]

theorem charListLe_trans (a b c : List Char) (hab : charListLe a b = true)
    (hbc : charListLe b c = true) : charListLe a c = true := by
  induction a generalizing b c with
  | nil => rfl
  | cons x xs ih =>
    cases b with
    | nil => simp [charListLe] at hab
    | cons y ys =>
      cases c with
      | nil => simp [charListLe] at hbc
      | cons z zs =>
        simp only [charListLe] at hab hbc ⊢
        split at hab
        · rename_i hxy
          split at hbc
          · rename_i hyz
            simp [Nat.lt_trans hxy hyz]
          · split at hbc
            · simp at hbc
            · rename_i h1 h2
              have : y.toNat = z.toNat :=
                Nat.le_antisymm (Nat.le_of_not_lt h2) (Nat.le_of_not_lt h1)
              simp [this ▸ hxy]
        · split at hab
          · simp at hab
          · rename_i h1 h2
            have hxy : x.toNat = y.toNat :=
              Nat.le_antisymm (Nat.le_of_not_lt h2) (Nat.le_of_not_lt h1)
            split at hbc
            · rename_i hyz
              simp [hxy ▸ hyz]
            · split at hbc
              · simp at hbc
              · rename_i h3 h4
                have hyz : y.toNat = z.toNat :=
                  Nat.le_antisymm (Nat.le_of_not_lt h4) (Nat.le_of_not_lt h3)
                have hxz : x.toNat = z.toNat := hxy.trans hyz
                simp [hxz, Nat.lt_irrefl, charListLe] at *
                exact ih ys zs hab hbc

theorem strLe_total (a b : String) : strLe a b = true ∨ strLe b a = true :=
  charListLe_total a.toList b.toList

theorem strLe_trans {a b c : String} (hab : strLe a b = true) (hbc : strLe b c = true) :
    strLe a c = true :=
  charListLe_trans a.toList b.toList c.toList hab hbc

theorem perm_insertStr (x : String) (l : List String) :
    List.Perm (insertStr x l) (x :: l) := by
  induction l with
  | nil => exact List.Perm.refl _
  | cons y ys ih =>
    cases h : strLe x y with
    | true => simp [insertStr, h]
    | false =>
      simp only [insertStr, h, Bool.false_eq_true, if_false]
      exact (ih.cons y).trans (List.Perm.swap x y ys)

theorem pairwise_insertStr (x : String) (l : List String)
    (h : l.Pairwise (fun a b => strLe a b = true)) :
    (insertStr x l).Pairwise (fun a b => strLe a b = true) := by
  induction l with
  | nil => simp [insertStr]
  | cons y ys ih =>
    rcases List.pairwise_cons.mp h with ⟨hy, hys⟩
    cases hxy : strLe x y with
    | true =>
      simp only [insertStr, hxy, if_true]
      exact List.Pairwise.cons (fun b hb => by
        rcases List.mem_cons.mp hb with rfl | hb2
        · exact hxy
        · exact strLe_trans hxy (hy b hb2)) h
    | false =>
      simp only [insertStr, hxy, Bool.false_eq_true, if_false]
      refine List.Pairwise.cons (fun b hb => ?_) (ih hys)
      rcases List.mem_cons.mp ((perm_insertStr x ys).mem_iff.mp hb) with hbx | hb2
      · subst hbx
        rcases strLe_total b y with h1 | h1
        · rw [hxy] at h1; exact absurd h1 (by simp)
        · exact h1
      · exact hy b hb2

theorem pairwise_sortStrings (l : List String) :
    (sortStrings l).Pairwise (fun a b => strLe a b = true) := by
  induction l with
  | nil => simp [sortStrings]
  | cons x xs ih => exact pairwise_insertStr x (sortStrings xs) ih

theorem perm_sortStrings (l : List String) : List.Perm (sortStrings l) l := by
  induction l with
  | nil => exact List.Perm.refl _
  | cons x xs ih => exact (perm_insertStr x (sortStrings xs)).trans (ih.cons x)

theorem lookupFile_dropFile (files : List (String × List Nat)) (v : String) :
    lookupFile (dropFile files v) v = none := by
  induction files with
  | nil => rfl
  | cons e rest ih =>
    by_cases h : e.1 = v
    · simp [dropFile, h, ih]
    · simp [dropFile, h, lookupFile, ih]

theorem isInstalled_removeFile (fs : FS) (v : String) :
    isInstalled (removeFile fs v) v = false := by
  simp [isInstalled, removeFile, lookupFile_dropFile]

theorem isInstalled_setFile (fs : FS) (v : String) (content : List Nat) :
    isInstalled (setFile fs v content) v = true := by
  simp [isInstalled, setFile, lookupFile]

end Tfvm

namespace Tfvm

/-- C1: the claim that every failure of install after the output file
has been created deletes the file before the error propagates is false:
the unlink-on-failure catch clause only wraps the verification phase
that runs after the write stream has finished.  Amended claim, proved
here: whenever the streaming phase completes (200 status, no stream
error, archive extracted) and install then fails for any reason
(manifest or signature fetch error, signature-verification failure,
missing or mismatching digest, chmod error), the file at the install
path is deleted before the error propagates.  Failures during the
streaming phase itself, after the 200 response created the file, leave
the partial file behind (see the counterexample theorem). -/
theorem install_deletes_file_on_post_write_failure
    (ext : Extern) (env : InstallEnv) (fs : FS) (v : String) (content : List Nat) (e : Err)
    (hst : env.respStatus = some 200)
    (hev : env.streamEvent = StreamEvent.ok)
    (hex : ext.extract env.body = Except.ok content)
    (herr : (install ext env fs v).outcome = Except.error e) :
    isInstalled (install ext env fs v).fs v = false := by
  simp only [install, sha256StreamRun, hst, hev, hex] at herr ⊢
  cases hfs : fetchSum ext.verifySig env.sumEnv v with
  | error e2 =>
    simp only [hfs] at herr ⊢
    simp [isInstalled_removeFile]
  | ok expected =>
    simp only [hfs] at herr ⊢
    by_cases hcmp : some (ext.sha256 env.body) = expected
    · simp only [hcmp, if_true] at herr ⊢
      cases hch : env.chmodErr with
      | true =>
        simp only [hch] at herr ⊢
        simp [isInstalled_removeFile]
      | false =>
        simp only [hch] at herr
        simp at herr
    · simp only [if_neg hcmp] at herr ⊢
      simp [isInstalled_removeFile]

/-- C1 counterexample: with a 200 response followed by an
archive-format error from the extractor, install propagates the error
while the partially-written file is still present at the install
path. -/
theorem install_archive_error_leaves_partial_file :
    (install extNoExtract envBody7 fsEmpty ("1.0.0")).outcome
      = Except.error Err.archiveFormatError
    ∧ isInstalled (install extNoExtract envBody7 fsEmpty ("1.0.0")).fs ("1.0.0") = true := by
  constructor <;> decide

/-- C1 witness: a signature-fetch failure after a fully-written file
deletes the file before the error propagates. -/
theorem install_deletes_file_on_post_write_failure_witness :
    (install extIdentity envSigFetchFail fsEmpty ("1.0.0")).outcome = Except.error Err.ioError
    ∧ isInstalled (install extIdentity envSigFetchFail fsEmpty ("1.0.0")).fs ("1.0.0") = false :=
  ⟨by decide, install_deletes_file_on_post_write_failure extIdentity envSigFetchFail fsEmpty
    ("1.0.0") [7] Err.ioError rfl rfl rfl (by decide)⟩

/-- C2: the digest compared against the manifest digest is the sha256
of the compressed archive bytes as received: the hasher stage sits
upstream of the extractor, so the result of install is unchanged under
any variation of the digest function away from the raw body bytes (in
particular at the extracted bytes), and on the success path install
succeeds exactly when the digest of the raw body equals the expected
digest. -/
theorem install_digest_is_of_archive_bytes
    (ext ext2 : Extern) (env : InstallEnv) (fs : FS) (v s : String) :
    (ext.extract = ext2.extract → ext.verifySig = ext2.verifySig →
      ext.sha256 env.body = ext2.sha256 env.body →
      install ext env fs v = install ext2 env fs v)
    ∧ (env.respStatus = some 200 → env.streamEvent = StreamEvent.ok →
      (∃ c, ext.extract env.body = Except.ok c) →
      fetchSum ext.verifySig env.sumEnv v = Except.ok (some s) →
      env.chmodErr = false →
      ((install ext env fs v).outcome = Except.ok () ↔ ext.sha256 env.body = s)) := by
  constructor
  · intro h1 h2 h3
    obtain ⟨s1, x1, g1⟩ := ext
    obtain ⟨s2, x2, g2⟩ := ext2
    dsimp only at h1 h2 h3
    subst h1
    subst h2
    simp only [install, sha256StreamRun]
    simp only [h3]
  · rintro hst hev ⟨c, hc⟩ hsum hch
    simp only [install, sha256StreamRun, hst, hev, hc, hsum, hch]
    by_cases h : ext.sha256 env.body = s
    · simp [h]
    · simp [h]

/-- C2 witness: two digest functions agreeing on the archive bytes give
identical install results, and install on the success path succeeds
exactly when the digest of the archive bytes matches the manifest. -/
theorem install_digest_is_of_archive_bytes_witness :
    install extHashA envBody7 fsEmpty ("1.0.0") = install extHashB envBody7 fsEmpty ("1.0.0")
    ∧ ((install extHashA envBody7 fsEmpty ("1.0.0")).outcome = Except.ok ()
      ↔ extHashA.sha256 envBody7.body = ("d1")) :=
  ⟨(install_digest_is_of_archive_bytes extHashA extHashB envBody7 fsEmpty ("1.0.0")
      ("d1")).1 rfl rfl (by decide),
   (install_digest_is_of_archive_bytes extHashA extHashB envBody7 fsEmpty ("1.0.0")
      ("d1")).2 rfl rfl ⟨[7], rfl⟩ (by decide) rfl⟩

end Tfvm

namespace Tfvm

/-- C3: fetchSum verifies the detached signature over the manifest text
exactly as received - its result depends on the verifier only through
the verifier's value at that text, with no transformation applied - and
fails with the signature-verification error whenever the signature does
not validate; in that case install propagates that error, so no digest
comparison is performed. -/
theorem fetchSum_rejects_invalid_signature
    (ext : Extern) (env : InstallEnv) (fs : FS) (v text : String) :
    (env.sumEnv.sums = Except.ok text → env.sumEnv.sigOk = true →
      ext.verifySig text = false →
      fetchSum ext.verifySig env.sumEnv v = Except.error Err.signatureVerificationError)
    ∧ (∀ vf2 : String → Bool, env.sumEnv.sums = Except.ok text →
      ext.verifySig text = vf2 text →
      fetchSum ext.verifySig env.sumEnv v = fetchSum vf2 env.sumEnv v)
    ∧ (env.respStatus = some 200 → env.streamEvent = StreamEvent.ok →
      (∃ c, ext.extract env.body = Except.ok c) →
      env.sumEnv.sums = Except.ok text → env.sumEnv.sigOk = true →
      ext.verifySig text = false →
      (install ext env fs v).outcome = Except.error Err.signatureVerificationError) := by
  refine ⟨?_, ?_, ?_⟩
  · intro h1 h2 h3
    simp [fetchSum, h1, h2, h3]
  · intro vf2 h1 hvf
    cases h2 : env.sumEnv.sigOk with
    | true =>
      simp only [fetchSum, h1, h2]
      rw [hvf]
    | false => simp [fetchSum, h1, h2]
  · rintro hst hev ⟨c, hc⟩ h1 h2 h3
    have hfs : fetchSum ext.verifySig env.sumEnv v
        = Except.error Err.signatureVerificationError := by
      simp [fetchSum, h1, h2, h3]
    simp [install, sha256StreamRun, hst, hev, hc, hfs]

/-- C3 witness: a rejecting verifier makes fetchSum fail with the
signature-verification error and install propagate it. -/
theorem fetchSum_rejects_invalid_signature_witness :
    fetchSum extRejectSig.verifySig envBody7.sumEnv ("1.0.0")
      = Except.error Err.signatureVerificationError
    ∧ (install extRejectSig envBody7 fsEmpty ("1.0.0")).outcome
      = Except.error Err.signatureVerificationError :=
  ⟨(fetchSum_rejects_invalid_signature extRejectSig envBody7 fsEmpty ("1.0.0")
      ("d1  terraform_1.0.0_linux_amd64.zip")).1 rfl rfl rfl,
   (fetchSum_rejects_invalid_signature extRejectSig envBody7 fsEmpty ("1.0.0")
      ("d1  terraform_1.0.0_linux_amd64.zip")).2.2 rfl rfl ⟨[7], rfl⟩ rfl rfl rfl⟩

/-- C4 counterexample: when the expected archive filename is absent
from the manifest, fetchSum does not fail with a checksum-not-found
error (no such error exists in the program): it returns the undefined
result of the map lookup, modelled as none. -/
theorem fetchSum_missing_name_returns_undefined :
    fetchSum (fun _ => true) sumEnvMissing ("1.0.0") = Except.ok none := by
  decide

/-- C4 amended: when the expected archive filename is absent from the
manifest, fetchSum returns the absent digest to install, whose strict
comparison against the computed digest then fails, so install fails
with the hash-mismatch error (deleting the written file), not with a
dedicated checksum-not-found error. -/
theorem install_missing_checksum_fails_as_mismatch
    (ext : Extern) (env : InstallEnv) (fs : FS) (v : String)
    (hst : env.respStatus = some 200) (hev : env.streamEvent = StreamEvent.ok)
    (hex : ∃ c, ext.extract env.body = Except.ok c)
    (hsum : fetchSum ext.verifySig env.sumEnv v = Except.ok none) :
    (install ext env fs v).outcome = Except.error Err.hashMismatchError
    ∧ isInstalled (install ext env fs v).fs v = false := by
  obtain ⟨c, hc⟩ := hex
  constructor
  · simp [install, sha256StreamRun, hst, hev, hc, hsum]
  · simp [install, sha256StreamRun, hst, hev, hc, hsum, isInstalled_removeFile]

/-- C4 witness: a manifest without the expected archive name makes
install fail with the hash-mismatch error and leave no file. -/
theorem install_missing_checksum_fails_as_mismatch_witness :
    (install extIdentity envMissingSum fsEmpty ("1.0.0")).outcome
      = Except.error Err.hashMismatchError
    ∧ isInstalled (install extIdentity envMissingSum fsEmpty ("1.0.0")).fs ("1.0.0") = false :=
  install_missing_checksum_fails_as_mismatch extIdentity envMissingSum fsEmpty ("1.0.0")
    rfl rfl ⟨[7], rfl⟩ (by decide)

/-- C5: the uninstall operation fails with the not-installed error when
the version is not installed, and on the current version it clears the
Current Pointer before deleting the version file, after which
getCurrent returns absent and the file no longer exists. -/
theorem uninstall_requires_installed_and_clears_current
    (scEnv : SetCurrentEnv) (fs : FS) (v : String) :
    (isInstalled fs v = false →
      uninstallCommand scEnv fs v = (Except.error (Err.notInstalledError v), fs))
    ∧ (isInstalled fs v = true → getCurrent fs = Except.ok (some v) →
      scEnv.unlinkErr = false →
      (uninstallCommand scEnv fs v).1 = Except.ok ()
      ∧ getCurrent (uninstallCommand scEnv fs v).2 = Except.ok none
      ∧ isInstalled (uninstallCommand scEnv fs v).2 v = false) := by
  constructor
  · intro h
    simp [uninstallCommand, h]
  · intro h hcur hue
    have hinst2 : isInstalled { fs with current := none } v = true := h
    have hun : uninstall scEnv fs v
        = (Except.ok (), removeFile { fs with current := none } v) := by
      simp [uninstall, hcur, setCurrent, hue, hinst2, removeFile]
    have hcmd : uninstallCommand scEnv fs v
        = (Except.ok (), removeFile { fs with current := none } v) := by
      simp [uninstallCommand, h, hun, removeFile, getCurrent]
    rw [hcmd]
    exact ⟨rfl, rfl, isInstalled_removeFile { fs with current := none } v⟩

/-- C5 witness: uninstalling the installed current version succeeds,
clears the pointer and removes the file. -/
theorem uninstall_requires_installed_and_clears_current_witness :
    (uninstallCommand scEnvOk fsOneCurrent ("1.0.0")).1 = Except.ok ()
    ∧ getCurrent (uninstallCommand scEnvOk fsOneCurrent ("1.0.0")).2 = Except.ok none
    ∧ isInstalled (uninstallCommand scEnvOk fsOneCurrent ("1.0.0")).2 ("1.0.0") = false :=
  (uninstall_requires_installed_and_clears_current scEnvOk fsOneCurrent ("1.0.0")).2
    (by decide) (by decide) rfl

/-- C6: the install operation on an already-installed version is a
no-op: it issues no network request, writes nothing and leaves the
filesystem - in particular the existing artifact - unchanged. -/
theorem install_noop_when_already_installed
    (ext : Extern) (env : InstallEnv) (fs : FS) (v : String)
    (h : isInstalled fs v = true) :
    installCommand ext env fs v = ⟨Except.ok (), fs, []⟩
    ∧ lookupFile (installCommand ext env fs v).fs.files v = lookupFile fs.files v := by
  have h1 : installCommand ext env fs v = ⟨Except.ok (), fs, []⟩ := by
    simp [installCommand, h]
  exact ⟨h1, by rw [h1]⟩

/-- C6 witness: installing an already-installed version returns
success with no network operations and an unchanged filesystem. -/
theorem install_noop_when_already_installed_witness :
    installCommand extIdentity envBody7 fsOne ("1.0.0") = ⟨Except.ok (), fsOne, []⟩ :=
  (install_noop_when_already_installed extIdentity envBody7 fsOne ("1.0.0") (by decide)).1

end Tfvm

namespace Tfvm

/-- C7 counterexample: when the symlink call fails with an error other
than EPERM, setCurrent returns success instead of propagating the
error (the catch clause rethrows only EPERM), leaving no pointer in
place. -/
theorem setCurrent_swallows_non_eperm_symlink_error :
    setCurrent scEnvOtherErr fsOne (some ("1.0.0"))
      = (Except.ok (), { dirExists := true, files := [(("1.0.0"), [1])], current := none }) := by
  decide

/-- C7 amended: setCurrent first removes any existing pointer,
treating an already absent link as success (a non-ENOENT unlink error
propagates); with a non-null version it then creates the symlink,
failing with the permission error on EPERM; any other error from the
link creation is silently swallowed and setCurrent returns success with
the pointer left absent, rather than propagating the error. -/
theorem setCurrent_error_handling
    (scEnv : SetCurrentEnv) (fs : FS) (v : String) :
    (scEnv.unlinkErr = true → ∀ ov : Option String,
      setCurrent scEnv fs ov = (Except.error Err.ioError, fs))
    ∧ (scEnv.unlinkErr = false →
      setCurrent scEnv fs none = (Except.ok (), { fs with current := none }))
    ∧ (scEnv.unlinkErr = false → scEnv.symlinkOutcome = SymlinkOutcome.ok →
      setCurrent scEnv fs (some v)
        = (Except.ok (), { fs with current := some (getPath v) }))
    ∧ (scEnv.unlinkErr = false → scEnv.symlinkOutcome = SymlinkOutcome.eperm →
      setCurrent scEnv fs (some v)
        = (Except.error Err.permissionError, { fs with current := none }))
    ∧ (scEnv.unlinkErr = false → scEnv.symlinkOutcome = SymlinkOutcome.otherErr →
      setCurrent scEnv fs (some v) = (Except.ok (), { fs with current := none })) := by
  refine ⟨?_, ?_, ?_, ?_, ?_⟩ <;> intros <;> simp [setCurrent, *]

/-- C7 witness: a clean unlink and symlink set the pointer to the
version's path. -/
theorem setCurrent_error_handling_witness :
    setCurrent scEnvOk fsOne (some ("1.0.0"))
      = (Except.ok (), { fsOne with current := some (getPath ("1.0.0")) }) :=
  (setCurrent_error_handling scEnvOk fsOne ("1.0.0")).2.2.1 rfl rfl

/-- C8: during the download no file is created at the install path
until a success status arrives: a non-200 response status makes
install fail with the download error carrying that status, with the
version files unchanged (only the versions directory was created) and
only the archive request issued. -/
theorem install_no_file_until_success_status
    (ext : Extern) (env : InstallEnv) (fs : FS) (v : String) (st : Nat)
    (hst : env.respStatus = some st) (hne : st ≠ 200) :
    install ext env fs v = ⟨Except.error (Err.downloadError st),
      { fs with dirExists := true }, [getExeUrl v]⟩
    ∧ (install ext env fs v).fs.files = fs.files := by
  have h1 : install ext env fs v = ⟨Except.error (Err.downloadError st),
      { fs with dirExists := true }, [getExeUrl v]⟩ := by
    simp [install, hst, hne]
  exact ⟨h1, by rw [h1]⟩

/-- C8 witness: a 404 status yields the download error carrying 404
and leaves no file at the target path. -/
theorem install_no_file_until_success_status_witness :
    install extIdentity envStatus404 fsEmpty ("1.0.0") = ⟨Except.error (Err.downloadError 404),
      { fsEmpty with dirExists := true }, [getExeUrl ("1.0.0")]⟩ :=
  (install_no_file_until_success_status extIdentity envStatus404 fsEmpty ("1.0.0") 404
    rfl (by decide)).1

/-- C9: list returns the empty sequence when the versions directory
does not exist, propagates any other readdir error, and on a directory
listing whose names all carry version tokens returns those tokens
sorted lexicographically (a permutation of the extracted tokens,
pairwise ordered by the code-unit order). -/
theorem list_extracts_sorts_and_tolerates_missing_dir
    (rd : Except IOKind (List String)) (files vs : List String) :
    (list (Except.error IOKind.enoent) = Except.ok [])
    ∧ (list (Except.error IOKind.other) = Except.error Err.ioError)
    ∧ (rd = Except.ok files → mapGetVersionAll files = some vs →
      list rd = Except.ok (sortStrings vs)
      ∧ (sortStrings vs).Pairwise (fun a b => strLe a b = true)
      ∧ List.Perm (sortStrings vs) vs) := by
  refine ⟨rfl, rfl, ?_⟩
  intro h1 h2
  subst h1
  exact ⟨by simp [list, h2], pairwise_sortStrings vs, perm_sortStrings vs⟩

/-- C9 witness: a two-entry listing is extracted and sorted. -/
theorem list_extracts_sorts_and_tolerates_missing_dir_witness :
    list (Except.ok [("terraform_0.12.9"), ("terraform_0.11.0")])
      = Except.ok (sortStrings [("0.12.9"), ("0.11.0")]) :=
  ((list_extracts_sorts_and_tolerates_missing_dir
      (Except.ok [("terraform_0.12.9"), ("terraform_0.11.0")])
      [("terraform_0.12.9"), ("terraform_0.11.0")] [("0.12.9"), ("0.11.0")]).2.2
    rfl (by decide)).1

/-- C10: on a directory entry whose basename does not contain the
version-file marker, list throws the TypeError caused by indexing the
null regular-expression match, rather than skipping the entry or
returning an empty result; an entry following the naming scheme is
extracted normally. -/
theorem list_throws_on_nonconforming_filename :
    list (Except.ok [("README")]) = Except.error Err.typeError
    ∧ list (Except.ok [("terraform_0.12.9")]) = Except.ok [("0.12.9")] := by
  constructor <;> decide

end Tfvm
